import Mathlib

/-!
# Verification of the yata streaming-method core

Shallow embedding of the streaming computation model of the `yata`
technical-analysis library: the `Method` trait with its batch drivers
`over` and `new_over` (src/core/method.rs), the `TRIMA` composite method
(src/methods/trima.rs), and the `ChandeMomentumOscillator` and
`CommodityChannelIndex` indicators (src/indicators/).

Machine floats (`ValueType = f64`) are modelled by `ℚ`; all concrete
computations checked here (sums of small dyadic rationals, divisions by
small powers of two) are exact in `f64`, so the `ℚ` model agrees with the
float code on them.  `PeriodType` (a `u8` in the crate core) is modelled
by `Nat`.

Rust methods mutate `&mut self`; here every `next` returns the pair
(output, updated state) and the batch drivers thread the state
explicitly.
-/

namespace Yata

/-- The crate-level error enum.  Modelled from the spec: `core::Error` is
not under src/; §7 names `WrongConfig`, `ParameterParse(name, raw_value)`
and method-level construction errors (here `WrongMethodParameters`). -/
inductive Error where
  | WrongConfig : Error
  | ParameterParse (name value : String) : Error
  | WrongMethodParameters : Error
deriving DecidableEq, Repr

/-- The `Method` trait of src/core/method.rs, as a record of its two
required operations.  `new` validates parameters and seeds state from the
first observation (`fn new(parameters, initial_value) -> Result<Self, Error>`);
`next` consumes one observation and returns one output, mutating state
(`fn next(&mut self, value) -> Output`), embedded as explicit state passing. -/
structure MethodT (Params Input Output State : Type) where
  new : Params → Input → Except Error State
  next : State → Input → Output × State

/-- `Method::over` (src/core/method.rs lines 96–103):
`inputs.as_ref().iter().map(|x| self.next(x)).collect()` — applies `next`
once per element in input order, threading the mutable state; returns the
collected outputs together with the final state. -/
def MethodT.overFrom {P I O S : Type} (M : MethodT P I O S) :
    S → List I → List O × S
  | st, [] => ([], st)
  | st, x :: xs =>
    let r := M.next st x
    let rest := M.overFrom r.2 xs
    (r.1 :: rest.1, rest.2)

/-- `Method::new_over` (src/core/method.rs lines 110–125): returns
`Ok(vec![])` on empty input, otherwise constructs the method from
`inputs[0]` (propagating a construction error with `?`) and runs `over`
on the whole input slice. -/
def MethodT.new_over {P I O S : Type} (M : MethodT P I O S)
    (params : P) (inputs : List I) : Except Error (List O) :=
  match inputs with
  | [] => Except.ok []
  | x :: _ =>
    match M.new params x with
    | Except.error e => Except.error e
    | Except.ok st => Except.ok (M.overFrom st inputs).1

/-- `fold next over S[1:] prefixed by the first output`, the manual
incremental computation the spec compares `new_over` against: seed from
`S[0]`, emit `next S[0]` first, then fold `next` over the tail. -/
def MethodT.manualFold {P I O S : Type} (M : MethodT P I O S)
    (st : S) (x : I) (xs : List I) : List O :=
  let r := M.next st x
  r.1 :: (M.overFrom r.2 xs).1

/-! ## Windowing primitive and simple moving average

`core::Window` and `methods::SMA` are not under src/; they are modelled
from the spec (§4.2 and §2/§8) and from their use sites in
src/methods/trima.rs. -/

/-- Modelled from the spec: `core::Window<T>` (§4.2, not under src/) — a
fixed-capacity ring of `capacity` values, all slots initialized to the
seed; `push` overwrites the oldest slot and returns the evicted value.
Represented as a FIFO list whose head is the oldest slot.  A capacity-0
window (below the spec's `capacity ≥ 1` precondition) returns the pushed
value unchanged. -/
structure Window (α : Type) where
  buf : List α
deriving DecidableEq, Repr

/-- `Window::new(capacity, seed)`: all `capacity` slots hold `seed`. -/
def Window.new {α : Type} (capacity : Nat) (seed : α) : Window α :=
  ⟨List.replicate capacity seed⟩

/-- `Window::push(value) -> T`: inserts the newest value, evicts and
returns the oldest. -/
def Window.push {α : Type} (w : Window α) (v : α) : α × Window α :=
  match w.buf with
  | [] => (v, w)
  | old :: rest => (old, ⟨rest ++ [v]⟩)

/-- Modelled from the spec: `methods::SMA` (not under src/) — a simple
moving average owning a `Window` seeded with the first observation and a
running sum updated with the evicted value (§4.2 `running_sum += new -
evicted`); output is `sum / length` (§8: period 2 over `[1..10]` yields
`[1, 1.5, 2.5, …]`).  Its constructor signature `SMA::new(length, value)
-> Self` follows the call sites in src/methods/trima.rs lines 63–64. -/
structure SMA where
  window : Window ℚ
  sum : ℚ
  length : Nat
deriving DecidableEq, Repr

/-- `SMA::new(length, value)`: window of `length` copies of `value`,
running sum seeded as if the method had run on an infinite history of
`value`. -/
def SMA.new (length : Nat) (value : ℚ) : SMA :=
  { window := Window.new length value
    sum := value * length
    length := length }

/-- `SMA::next`: push, update the running sum with the evicted value,
emit `sum / length`. -/
def SMA.next (s : SMA) (v : ℚ) : ℚ × SMA :=
  let r := s.window.push v
  let sum := s.sum + v - r.1
  (sum / (s.length : ℚ), { window := r.2, sum := sum, length := s.length })

/-! ## TRIMA (src/methods/trima.rs) -/

/-- `TRIMA` (src/methods/trima.rs lines 47–52): two cascaded `SMA`s of
the same length. -/
structure TRIMA where
  sma1 : SMA
  sma2 : SMA
deriving DecidableEq, Repr

/-- `TRIMA::new(length, value) -> Self` (src/methods/trima.rs lines
59–66): constructs the two SMAs directly.  The source's
`debug_assert!(length > 0)` is compiled out of release builds and has no
effect on the returned value, so it does not appear in the model: `new`
is total and never returns an error. -/
def TRIMA.new (length : Nat) (value : ℚ) : TRIMA :=
  { sma1 := SMA.new length value, sma2 := SMA.new length value }

/-- `TRIMA::next` (src/methods/trima.rs lines 68–71):
`self.sma2.next(self.sma1.next(value))`. -/
def TRIMA.next (t : TRIMA) (v : ℚ) : ℚ × TRIMA :=
  let r1 := t.sma1.next v
  let r2 := t.sma2.next r1.1
  (r2.1, { sma1 := r1.2, sma2 := r2.2 })

/-- Repeated `TRIMA::next` calls over a list, collecting the outputs. -/
def TRIMA.run (t : TRIMA) : List ℚ → List ℚ
  | [] => []
  | x :: xs =>
    let r := t.next x
    r.1 :: r.2.run xs

/-! ## Candles, sources, derived streams and crossing detectors

`core::{Source, OHLCV, Error}` and `methods::{Change, CrossAbove,
CrossUnder}` are not under src/; they are modelled from the spec (§3,
§4.3, §6) and their use sites in src/indicators/. -/

/-- Modelled from the spec: `core::Source` (§6, not under src/) — the
configured numeric source field selector of a candle. -/
inductive Source where
  | Open : Source
  | High : Source
  | Low : Source
  | Close : Source
  | Volume : Source
deriving DecidableEq, Repr

/-- Modelled from the spec: an OHLCV candle (§6, not under src/) — any
value exposing open/high/low/close/volume accessors.  Fields `o h l c v`
stand for open, high, low, close, volume. -/
structure Candle where
  o : ℚ
  h : ℚ
  l : ℚ
  c : ℚ
  v : ℚ
deriving DecidableEq, Repr

/-- `OHLCV::source(source)`: extract the configured source field. -/
def Candle.source (cd : Candle) : Source → ℚ
  | Source.Open => cd.o
  | Source.High => cd.h
  | Source.Low => cd.l
  | Source.Close => cd.c
  | Source.Volume => cd.v

/-- Modelled from the spec: `methods::Change` (§4.3 differencing/delay,
not under src/) — outputs `current - value_from_k_ticks_ago` via a
`Window` of capacity `k` holding raw inputs, the evicted value being
exactly the value from `k` ticks ago.  Its constructor returns
`Result` (src/indicators/chande_momentum_oscillator.rs line 55 applies
`?` to `Change::new(1, …)`), rejecting a zero length as a method-level
construction error (§7). -/
structure Change where
  window : Window ℚ
deriving DecidableEq, Repr

/-- `Change::new(length, value)`: fails on `length = 0`, otherwise seeds
a window of `length` copies of `value`. -/
def Change.new (length : Nat) (value : ℚ) : Except Error Change :=
  if length = 0 then Except.error Error.WrongMethodParameters
  else Except.ok ⟨Window.new length value⟩

/-- `Change::next(value)`: push and subtract the evicted value. -/
def Change.next (ch : Change) (value : ℚ) : ℚ × Change :=
  let r := ch.window.push value
  (value - r.1, ⟨r.2⟩)

/-- Modelled from the spec: `methods::CrossAbove` (§4.3, not under src/)
— holds the previous ordering of the compared pair; fires a unit output
exactly on the tick where `a` transitions from `≤ b` to `> b` (equality
counts as not-above).  `Default` starts from the not-above state. -/
structure CrossAbove where
  up : Bool
deriving DecidableEq, Repr

/-- `CrossAbove::default()`. -/
def CrossAbove.default : CrossAbove := ⟨false⟩

/-- `CrossAbove::next((a, b))`: `1` exactly when previously `a ≤ b` and
now `a > b`, else `0`. -/
def CrossAbove.next (s : CrossAbove) (p : ℚ × ℚ) : Int × CrossAbove :=
  let now := decide (p.2 < p.1)
  (if !s.up && now then 1 else 0, ⟨now⟩)

/-- Modelled from the spec: `methods::CrossUnder` (§4.3, not under src/)
— symmetric to `CrossAbove`: fires exactly on the tick where `a`
transitions from `≥ b` to `< b`. -/
structure CrossUnder where
  down : Bool
deriving DecidableEq, Repr

/-- `CrossUnder::default()`. -/
def CrossUnder.default : CrossUnder := ⟨false⟩

/-- `CrossUnder::next((a, b))`: `1` exactly when previously `a ≥ b` and
now `a < b`, else `0`. -/
def CrossUnder.next (s : CrossUnder) (p : ℚ × ℚ) : Int × CrossUnder :=
  let now := decide (p.1 < p.2)
  (if !s.down && now then 1 else 0, ⟨now⟩)

/-- Modelled from the spec: `core::IndicatorResult` (§3, not under src/)
— the fixed-width per-tick pair of value and signal sequences; signals
(`Action` in the crate) are kept as the underlying small signed
integers. -/
structure IndicatorResult where
  values : List ℚ
  signals : List Int
deriving DecidableEq, Repr

/-! ## ChandeMomentumOscillator
(src/indicators/chande_momentum_oscillator.rs) -/

/-- `ChandeMomentumOscillator` config (lines 27–38): `period` (`u8` in
the crate, range documented `[2, MAX]`), `zone` in `[0, 1]`, `source`. -/
structure ChandeMomentumOscillator where
  period : Nat
  zone : ℚ
  source : Source
deriving DecidableEq, Repr

/-- `ChandeMomentumOscillator::validate` (lines 63–65):
`self.zone >= 0. && self.zone <= 1.0 && self.period > 1`. -/
def ChandeMomentumOscillator.validate (cfg : ChandeMomentumOscillator) : Bool :=
  decide (0 ≤ cfg.zone) && decide (cfg.zone ≤ 1) && decide (1 < cfg.period)

/-- `ChandeMomentumOscillatorInstance` (lines 105–115). -/
structure ChandeMomentumOscillatorInstance where
  cfg : ChandeMomentumOscillator
  pos_sum : ℚ
  neg_sum : ℚ
  change : Change
  window : Window ℚ
  cross_under : CrossUnder
  cross_above : CrossAbove
deriving DecidableEq, Repr

/-- `ChandeMomentumOscillator::init` (lines 45–61): returns
`Err(WrongConfig)` when `validate` fails, otherwise builds the instance
with zero sums, `Change::new(1, source value)` (propagated with `?`), a
period-sized window of zeros and default crossing detectors. -/
def ChandeMomentumOscillator.init (cfg : ChandeMomentumOscillator)
    (candle : Candle) : Except Error ChandeMomentumOscillatorInstance :=
  if !cfg.validate then Except.error Error.WrongConfig
  else
    match Change.new 1 (candle.source cfg.source) with
    | Except.error e => Except.error e
    | Except.ok ch =>
      Except.ok
        { cfg := cfg
          pos_sum := 0
          neg_sum := 0
          change := ch
          window := Window.new cfg.period 0
          cross_under := CrossUnder.default
          cross_above := CrossAbove.default }

/-- The free function `change` (lines 117–125): splits a tick's change
into its positive part and negated negative part. -/
def change (c : ℚ) : ℚ × ℚ :=
  ((if 0 < c then c else 0), (if c < 0 then -c else 0))

/-- `ChandeMomentumOscillatorInstance::next` (lines 134–154): difference
the source value, push it through the period window, update both running
sums incrementally from the entering and evicted changes, emit the ratio
`(pos_sum - neg_sum) / (pos_sum + neg_sum)` guarded by
`pos_sum != 0 || neg_sum != 0` (else `0`), and derive the signal from the
two zone-crossing detectors. -/
def ChandeMomentumOscillatorInstance.next
    (inst : ChandeMomentumOscillatorInstance) (candle : Candle) :
    IndicatorResult × ChandeMomentumOscillatorInstance :=
  let rch := inst.change.next (candle.source inst.cfg.source)
  let rw := inst.window.push rch.1
  let left := Yata.change rw.1
  let right := Yata.change rch.1
  let pos_sum := inst.pos_sum + (right.1 - left.1)
  let neg_sum := inst.neg_sum + (right.2 - left.2)
  let value :=
    if pos_sum ≠ 0 ∨ neg_sum ≠ 0 then (pos_sum - neg_sum) / (pos_sum + neg_sum)
    else 0
  let ru := inst.cross_under.next (value, -inst.cfg.zone)
  let ra := inst.cross_above.next (value, inst.cfg.zone)
  let signal := ru.1 - ra.1
  (⟨[value], [signal]⟩,
    { cfg := inst.cfg
      pos_sum := pos_sum
      neg_sum := neg_sum
      change := rch.2
      window := rw.2
      cross_under := ru.2
      cross_above := ra.2 })

/-- Outputs of repeated `ChandeMomentumOscillatorInstance::next` calls
over a list of candles, collecting the emitted values. -/
def ChandeMomentumOscillatorInstance.runValues
    (inst : ChandeMomentumOscillatorInstance) : List Candle → List ℚ
  | [] => []
  | c :: cs =>
    let r := inst.next c
    r.1.values ++ r.2.runValues cs

/-- The running-sum invariant of a `ChandeMomentumOscillatorInstance`:
`pos_sum` (resp. `neg_sum`) is exactly the sum of the positive (resp.
negated negative) parts of the changes currently held in the window. -/
def CMOInv (inst : ChandeMomentumOscillatorInstance) : Prop :=
  inst.pos_sum = (inst.window.buf.map fun c => (Yata.change c).1).sum ∧
    inst.neg_sum = (inst.window.buf.map fun c => (Yata.change c).2).sum

/-! ## Dynamic reconfiguration (`set`) -/

/-- Decimal digit value of a character, `none` on a non-digit. -/
def digitVal (c : Char) : Option Nat :=
  if c = '0' then some 0 else if c = '1' then some 1 else if c = '2' then some 2
  else if c = '3' then some 3 else if c = '4' then some 4 else if c = '5' then some 5
  else if c = '6' then some 6 else if c = '7' then some 7 else if c = '8' then some 8
  else if c = '9' then some 9 else none

/-- Accumulating decimal read of a character list, `none` as soon as a
non-digit appears. -/
def digitsToNat : Nat → List Char → Option Nat
  | acc, [] => some acc
  | acc, c :: cs =>
    match digitVal c with
    | none => none
    | some d => digitsToNat (acc * 10 + d) cs

/-- Modelled from the spec: parsing a period string
(`value.parse::<PeriodType>()`, i.e. `u8::from_str`, not under src/) —
succeeds exactly on nonempty decimal digit strings whose value fits in a
`u8` (leading-sign handling of the Rust parser is omitted; no claim
depends on it). -/
def parsePeriod (s : String) : Option Nat :=
  if s.data.isEmpty then none
  else
    match digitsToNat 0 s.data with
    | none => none
    | some n => if n < 256 then some n else none

/-- `ChandeMomentumOscillator::set` (lines 67–88): matches on the field
name, parses the value string into the field's type, and returns
`Err(ParameterParse(name, value))` when parsing fails or the name is
unrecognized.  The `zone` (`f64`) and `source` string parsers live
outside src/, so `set` is parametrized by them; the Rust method mutates
`&mut self` and returns `Ok(())`, embedded as returning the updated
config. -/
def ChandeMomentumOscillator.set (pz : String → Option ℚ)
    (ps : String → Option Source) (cfg : ChandeMomentumOscillator)
    (name value : String) : Except Error ChandeMomentumOscillator :=
  if name = "period" then
    match parsePeriod value with
    | none => Except.error (Error.ParameterParse name value)
    | some v => Except.ok { cfg with period := v }
  else if name = "zone" then
    match pz value with
    | none => Except.error (Error.ParameterParse name value)
    | some v => Except.ok { cfg with zone := v }
  else if name = "source" then
    match ps value with
    | none => Except.error (Error.ParameterParse name value)
    | some v => Except.ok { cfg with source := v }
  else Except.error (Error.ParameterParse name value)

/-! ## CommodityChannelIndex (src/indicators/commodity_channel_index.rs) -/

/-- `CommodityChannelIndex` config (lines 26–41): `period` (`u8`),
`zone` in `[0, +inf)`, `source`. -/
structure CommodityChannelIndex where
  period : Nat
  zone : ℚ
  source : Source
deriving DecidableEq, Repr

/-- `CommodityChannelIndex::validate` (lines 65–67):
`self.zone >= 0.0 && self.period > 1 && self.period < PeriodType::MAX`
(`PeriodType::MAX = 255`). -/
def CommodityChannelIndex.validate (cfg : CommodityChannelIndex) : Bool :=
  decide (0 ≤ cfg.zone) && decide (1 < cfg.period) && decide (cfg.period < 255)

/-- `CommodityChannelIndex::set` (lines 69–90): same shape as the
ChandeMomentumOscillator setter. -/
def CommodityChannelIndex.set (pz : String → Option ℚ)
    (ps : String → Option Source) (cfg : CommodityChannelIndex)
    (name value : String) : Except Error CommodityChannelIndex :=
  if name = "period" then
    match parsePeriod value with
    | none => Except.error (Error.ParameterParse name value)
    | some v => Except.ok { cfg with period := v }
  else if name = "zone" then
    match pz value with
    | none => Except.error (Error.ParameterParse name value)
    | some v => Except.ok { cfg with zone := v }
  else if name = "source" then
    match ps value with
    | none => Except.error (Error.ParameterParse name value)
    | some v => Except.ok { cfg with source := v }
  else Except.error (Error.ParameterParse name value)

/-- `const SCALE: ValueType = 1.0 / 1.5` (line 8), exactly `2/3` in the
rational model. -/
def SCALE : ℚ := 1 / (3 / 2)

/-- `CommodityChannelIndexInstance` (lines 107–115).  The `CCI` method
it owns (`methods::CCI`) is not under src/ and its numeric formula is
out of the spec's scope (§1), so the instance carries an arbitrary CCI
method state of type `σ`. -/
structure CommodityChannelIndexInstance (σ : Type) where
  cfg : CommodityChannelIndex
  cci : σ
  last_cci : ℚ
  last_signal : Int

/-- `CommodityChannelIndexInstance::next` (lines 124–153), parametrized
by the CCI method's transition function `f` (its `next`): scale the raw
CCI output by `SCALE`, derive the raw crossing signal `t_signal` from
the current and previous scaled values against `±zone`, debounce it
against `last_signal`, and store the emitted signal back into
`last_signal`.  The emitted `Action::from(signal)` is kept as the
underlying signed integer. -/
def CommodityChannelIndexInstance.next {σ : Type} (f : σ → ℚ → ℚ × σ)
    (inst : CommodityChannelIndexInstance σ) (candle : Candle) :
    IndicatorResult × CommodityChannelIndexInstance σ :=
  let value := candle.source inst.cfg.source
  let r := f inst.cci value
  let cci := r.1 * SCALE
  let t_signal : Int :=
    (if cci < -inst.cfg.zone ∧ -inst.cfg.zone ≤ inst.last_cci then 1 else 0) -
      (if inst.cfg.zone < cci ∧ inst.last_cci ≤ inst.cfg.zone then 1 else 0)
  let signal : Int :=
    if t_signal ≠ 0 ∧ inst.last_signal ≠ t_signal then t_signal else 0
  (⟨[cci], [signal]⟩,
    { cfg := inst.cfg, cci := r.2, last_cci := cci, last_signal := signal })

/-! ## Concrete data used by the witnesses -/

/-- Default `ChandeMomentumOscillator` config (period 9, zone ½). -/
def witnessCfg : ChandeMomentumOscillator :=
  { period := 9, zone := 1 / 2, source := Source.Close }

def witnessCandle0 : Candle := { o := 10, h := 10, l := 10, c := 10, v := 10 }

def witnessCandle2 : Candle := { o := 12, h := 12, l := 12, c := 12, v := 12 }

def witnessCandleNeg : Candle := { o := -3, h := -3, l := -3, c := -3, v := -3 }

/-- The instance `witnessCfg.init witnessCandle0` produces. -/
def witnessInstance : ChandeMomentumOscillatorInstance :=
  { cfg := witnessCfg
    pos_sum := 0
    neg_sum := 0
    change := ⟨Window.new 1 10⟩
    window := Window.new 9 0
    cross_under := CrossUnder.default
    cross_above := CrossAbove.default }

/-- Default `CommodityChannelIndex` config (period 18, zone 1). -/
def cciWitnessCfg : CommodityChannelIndex :=
  { period := 18, zone := 1, source := Source.Close }

/-- A freshly seeded `CommodityChannelIndexInstance` with a trivial CCI
method state: the CCI stage passes the source value through. -/
def cciWitnessInstance : CommodityChannelIndexInstance Unit :=
  { cfg := cciWitnessCfg, cci := (), last_cci := 0, last_signal := 0 }

def cciWitnessStep : Unit → ℚ → ℚ × Unit := fun u v => (v, u)

/-!
# Theorems
-/

/-- C2. For every method and every input list, `over` applies `next` once
per element in input order (its defining recursion) and the output list
has exactly the length of the input list — including the empty list, and
independently of any period parameter hidden in the state. -/
theorem over_length {P I O S : Type} (M : MethodT P I O S)
    (st : S) (inputs : List I) :
    (M.overFrom st inputs).1.length = inputs.length := by
  induction inputs generalizing st with
  | nil => rfl
  | cons x xs ih =>
    simp [MethodT.overFrom, ih]

/-- C1. For every parameter set and every nonempty input sequence
`x :: xs`, `new_over` returns exactly (under the same success/failure of
construction) the sequence obtained by constructing the method from the
first element `x` and folding `next` over the tail `xs` prefixed by the
first output; in particular the head of the result is the output of
`next x` on the freshly seeded state. -/
theorem new_over_eq_manual_fold {P I O S : Type} (M : MethodT P I O S)
    (params : P) (x : I) (xs : List I) :
    M.new_over params (x :: xs) =
      (M.new params x).map (fun st => M.manualFold st x xs) := by
  cases h : M.new params x with
  | error e => simp [MethodT.new_over, h, Except.map]
  | ok st => simp [MethodT.new_over, h, Except.map, MethodT.overFrom, MethodT.manualFold]

/-- C8. For every method and every parameter set — even one the
constructor would reject — `new_over` on the empty input returns `Ok`
with the empty output vector: the empty case short-circuits before the
constructor is invoked, so no construction error can be returned. -/
theorem new_over_nil {P I O S : Type} (M : MethodT P I O S) (params : P) :
    M.new_over params [] = Except.ok [] := rfl

/-- C6. The two-stage cascaded average `TRIMA` of period 4, seeded from
the first element of `1, 1, 2, 3, 4` and then fed that whole sequence,
emits `1.25` as its fourth output and `1.625` as its fifth (src doctest,
src/methods/trima.rs lines 26–38, modulo the extra seeding tick). -/
theorem trima_4_concrete :
    ((TRIMA.new 4 1).run [1, 1, 2, 3, 4]).get? 3 = some (5 / 4) ∧
      ((TRIMA.new 4 1).run [1, 1, 2, 3, 4]).get? 4 = some (13 / 8) := by
  norm_num [TRIMA.run, TRIMA.new, TRIMA.next, SMA.new, SMA.next,
    Window.new, Window.push, List.replicate]

/-- C3 (failing-input evaluation). `TRIMA::new(0, 1.0)` produces an
instance — built from two length-0 SMAs — rather than returning an `Err`:
the implementation's return type is `Self`, not `Result<Self, Error>` as
the `Method` trait (src/core/method.rs line 48) declares, and its
`debug_assert!(length > 0)` panics only in debug builds. -/
theorem trima_new_zero_produces_instance :
    TRIMA.new 0 1 = { sma1 := SMA.new 0 1, sma2 := SMA.new 0 1 } := rfl

theorem cmo_inv_init (cfg : ChandeMomentumOscillator) (candle : Candle)
    (inst : ChandeMomentumOscillatorInstance)
    (h : cfg.init candle = Except.ok inst) : CMOInv inst := by
  unfold ChandeMomentumOscillator.init at h
  by_cases hv : cfg.validate
  · simp only [hv, Bool.not_true, Bool.false_eq_true, if_false, Change.new,
      one_ne_zero, if_neg, Except.ok.injEq, reduceCtorEq] at h
    subst h
    constructor <;>
      simp [CMOInv, Window.new, Yata.change, List.map_replicate,
        List.sum_replicate]
  · simp [hv] at h

theorem cmo_inv_step (inst : ChandeMomentumOscillatorInstance)
    (candle : Candle) (h : CMOInv inst) : CMOInv (inst.next candle).2 := by
  obtain ⟨hp, hn⟩ := h
  unfold ChandeMomentumOscillatorInstance.next
  cases hbuf : inst.window.buf with
  | nil =>
    constructor <;>
      simp [Window.push, hbuf, hp, hn]
  | cons e rest =>
    constructor <;>
      simp [Window.push, hbuf, hp, hn, List.map_append, List.sum_append] <;>
      ring

theorem cmo_sums_nonneg (inst : ChandeMomentumOscillatorInstance)
    (h : CMOInv inst) : 0 ≤ inst.pos_sum ∧ 0 ≤ inst.neg_sum := by
  obtain ⟨hp, hn⟩ := h
  constructor
  · rw [hp]
    apply List.sum_nonneg
    intro x hx
    simp only [List.mem_map] at hx
    obtain ⟨c, _, rfl⟩ := hx
    by_cases hc : 0 < c <;> simp [Yata.change, hc]
    exact le_of_lt hc
  · rw [hn]
    apply List.sum_nonneg
    intro x hx
    simp only [List.mem_map] at hx
    obtain ⟨c, _, rfl⟩ := hx
    by_cases hc : c < 0 <;> simp [Yata.change, hc]
    linarith

/-- The emitted value of one `next` call, expressed through the updated
sums: the guarded ratio of the post-update `pos_sum` and `neg_sum`. -/
theorem cmo_next_values (inst : ChandeMomentumOscillatorInstance)
    (candle : Candle) :
    (inst.next candle).1.values =
      [if (inst.next candle).2.pos_sum ≠ 0 ∨ (inst.next candle).2.neg_sum ≠ 0
        then ((inst.next candle).2.pos_sum - (inst.next candle).2.neg_sum) /
          ((inst.next candle).2.pos_sum + (inst.next candle).2.neg_sum)
        else 0] := rfl

/-- C4. `ChandeMomentumOscillator::init` returns the `WrongConfig` error
and produces no instance exactly when the validation predicate
`0 ≤ zone ∧ zone ≤ 1 ∧ period > 1` fails; when it holds, `init` returns
a live instance (the inner `Change::new(1, …)` construction always
succeeds, its length `1` being nonzero). -/
theorem cmo_init_wrong_config_iff (cfg : ChandeMomentumOscillator)
    (candle : Candle) :
    (cfg.init candle = Except.error Error.WrongConfig ↔
      ¬(0 ≤ cfg.zone ∧ cfg.zone ≤ 1 ∧ 1 < cfg.period)) ∧
    ((0 ≤ cfg.zone ∧ cfg.zone ≤ 1 ∧ 1 < cfg.period) →
      ∃ inst, cfg.init candle = Except.ok inst) := by
  have hv : cfg.validate = true ↔ (0 ≤ cfg.zone ∧ cfg.zone ≤ 1 ∧ 1 < cfg.period) := by
    simp [ChandeMomentumOscillator.validate, and_assoc]
  by_cases h : 0 ≤ cfg.zone ∧ cfg.zone ≤ 1 ∧ 1 < cfg.period
  · have ht : cfg.validate = true := hv.mpr h
    constructor
    · simp [ChandeMomentumOscillator.init, ht, Change.new, h]
    · intro _
      exact ⟨{ cfg := cfg, pos_sum := 0, neg_sum := 0,
               change := ⟨Window.new 1 (candle.source cfg.source)⟩,
               window := Window.new cfg.period 0,
               cross_under := CrossUnder.default,
               cross_above := CrossAbove.default },
             by simp [ChandeMomentumOscillator.init, ht, Change.new]⟩
  · have hf : cfg.validate = false := by
      rcases Bool.eq_false_or_eq_true cfg.validate with h' | h'
      · exact absurd (hv.mp h') h
      · exact h'
    exact ⟨by simp [ChandeMomentumOscillator.init, hf, h], fun hh => absurd hh h⟩

/-- Witness for C4: the default config (period 9, zone ½) with a
concrete candle yields a live instance. -/
theorem cmo_init_wrong_config_iff_witness :
    ∃ inst, ChandeMomentumOscillator.init
      { period := 9, zone := 1 / 2, source := Source.Close }
      { o := 1, h := 2, l := 0, c := 1, v := 5 } = Except.ok inst :=
  (cmo_init_wrong_config_iff
    { period := 9, zone := 1 / 2, source := Source.Close }
    { o := 1, h := 2, l := 0, c := 1, v := 5 }).2 (by norm_num)

/-- C5. Steady-state `next` calls on a live `ChandeMomentumOscillator`
instance are infallible (the embedding of `next` is a total function
into `IndicatorResult`), and on any instance satisfying the running-sum
invariant: when both updated sums are zero the emitted oscillator value
is exactly `0`, and whenever the guard `pos_sum != 0 || neg_sum != 0`
admits the division, its denominator `pos_sum + neg_sum` is nonzero. -/
theorem cmo_next_zero_denominator_guard
    (inst : ChandeMomentumOscillatorInstance) (candle : Candle)
    (h : CMOInv inst) :
    ((inst.next candle).2.pos_sum = 0 ∧ (inst.next candle).2.neg_sum = 0 →
      (inst.next candle).1.values = [0]) ∧
    ((inst.next candle).2.pos_sum ≠ 0 ∨ (inst.next candle).2.neg_sum ≠ 0 →
      (inst.next candle).2.pos_sum + (inst.next candle).2.neg_sum ≠ 0) := by
  have hnn := cmo_sums_nonneg _ (cmo_inv_step inst candle h)
  constructor
  · rintro ⟨hp, hn⟩
    rw [cmo_next_values]
    simp [hp, hn]
  · rintro (hne | hne)
    · have := lt_of_le_of_ne hnn.1 (Ne.symm hne)
      linarith [hnn.2]
    · have := lt_of_le_of_ne hnn.2 (Ne.symm hne)
      linarith [hnn.1]

/-- Witness for C5 at the concrete seeded instance. -/
theorem cmo_next_zero_denominator_guard_witness :
    ((witnessInstance.next witnessCandle2).2.pos_sum = 0 ∧
        (witnessInstance.next witnessCandle2).2.neg_sum = 0 →
      (witnessInstance.next witnessCandle2).1.values = [0]) ∧
    ((witnessInstance.next witnessCandle2).2.pos_sum ≠ 0 ∨
        (witnessInstance.next witnessCandle2).2.neg_sum ≠ 0 →
      (witnessInstance.next witnessCandle2).2.pos_sum +
        (witnessInstance.next witnessCandle2).2.neg_sum ≠ 0) :=
  cmo_next_zero_denominator_guard witnessInstance witnessCandle2
    (by simp [CMOInv, witnessInstance, Window.new, Yata.change])

theorem cmo_value_bounds_step (inst : ChandeMomentumOscillatorInstance)
    (candle : Candle) (h : CMOInv inst) :
    ∀ x ∈ (inst.next candle).1.values, -1 ≤ x ∧ x ≤ 1 := by
  have hnn := cmo_sums_nonneg _ (cmo_inv_step inst candle h)
  intro x hx
  rw [cmo_next_values] at hx
  simp only [List.mem_singleton] at hx
  subst hx
  by_cases hg : (inst.next candle).2.pos_sum ≠ 0 ∨ (inst.next candle).2.neg_sum ≠ 0
  · rw [if_pos hg]
    have hpos : 0 < (inst.next candle).2.pos_sum + (inst.next candle).2.neg_sum := by
      rcases hg with hne | hne
      · have := lt_of_le_of_ne hnn.1 (Ne.symm hne)
        linarith [hnn.2]
      · have := lt_of_le_of_ne hnn.2 (Ne.symm hne)
        linarith [hnn.1]
    constructor
    · rw [le_div_iff₀ hpos]
      linarith [hnn.1, hnn.2]
    · rw [div_le_one hpos]
      linarith [hnn.2]
  · rw [if_neg hg]
    norm_num

theorem cmo_run_values_bounds_aux (cs : List Candle)
    (inst : ChandeMomentumOscillatorInstance) (h : CMOInv inst) :
    ∀ x ∈ inst.runValues cs, -1 ≤ x ∧ x ≤ 1 := by
  induction cs generalizing inst with
  | nil => simp [ChandeMomentumOscillatorInstance.runValues]
  | cons c cs ih =>
    intro x hx
    simp only [ChandeMomentumOscillatorInstance.runValues,
      List.mem_append] at hx
    rcases hx with hx | hx
    · exact cmo_value_bounds_step inst c h x hx
    · exact ih (inst.next c).2 (cmo_inv_step inst c h) x hx

/-- C9. Every oscillator value a live `ChandeMomentumOscillator`
instance emits over any input sequence lies in `[-1, 1]`: under the
exact-arithmetic running-sum invariant established at `init`, `pos_sum`
and `neg_sum` stay nonnegative on every tick, so the emitted ratio
`(pos_sum - neg_sum) / (pos_sum + neg_sum)` is bounded and the fallback
`0` lies in the interval as well. -/
theorem cmo_values_in_unit_interval (cfg : ChandeMomentumOscillator)
    (c0 : Candle) (inst : ChandeMomentumOscillatorInstance)
    (cs : List Candle) (x : ℚ)
    (hinit : cfg.init c0 = Except.ok inst)
    (hx : x ∈ inst.runValues cs) : -1 ≤ x ∧ x ≤ 1 :=
  cmo_run_values_bounds_aux cs inst (cmo_inv_init cfg c0 inst hinit) x hx

/-- Witness for C9: the seeded instance fed one candle emits the value
`1`, which lies in `[-1, 1]`. -/
theorem cmo_values_in_unit_interval_witness : -1 ≤ (1 : ℚ) ∧ (1 : ℚ) ≤ 1 :=
  cmo_values_in_unit_interval witnessCfg witnessCandle0 witnessInstance
    [witnessCandle2] 1
    (by norm_num [ChandeMomentumOscillator.init,
      ChandeMomentumOscillator.validate, Change.new, witnessCfg,
      witnessCandle0, witnessInstance, Candle.source])
    (by norm_num [ChandeMomentumOscillatorInstance.runValues,
      ChandeMomentumOscillatorInstance.next, Change.next, Window.push,
      Window.new, Yata.change, witnessInstance, witnessCfg,
      witnessCandle2, Candle.source, CrossUnder.default,
      CrossAbove.default, CrossUnder.next, CrossAbove.next,
      List.replicate])

/-- C7. For both indicator configs, `set(name, value)` with an
unrecognized field name returns `ParameterParse` carrying that name and
the raw string, and `set("period", value)` with a string that does not
parse as a period returns `ParameterParse` carrying `"period"` and the
offending raw string — for every zone/source parser. -/
theorem set_parameter_parse_errors (pz : String → Option ℚ)
    (ps : String → Option Source) (cmo : ChandeMomentumOscillator)
    (cci : CommodityChannelIndex) (name value : String)
    (hname : name ≠ "period" ∧ name ≠ "zone" ∧ name ≠ "source")
    (hval : parsePeriod value = none) :
    cmo.set pz ps name value = Except.error (Error.ParameterParse name value) ∧
    cci.set pz ps name value = Except.error (Error.ParameterParse name value) ∧
    cmo.set pz ps "period" value =
      Except.error (Error.ParameterParse "period" value) ∧
    cci.set pz ps "period" value =
      Except.error (Error.ParameterParse "period" value) := by
  obtain ⟨h1, h2, h3⟩ := hname
  refine ⟨?_, ?_, ?_, ?_⟩ <;>
    simp [ChandeMomentumOscillator.set, CommodityChannelIndex.set,
      h1, h2, h3, hval]

/-- Witness for C7: the unknown name `"foo"` and the non-numeric period
string `"abc"` on the default configs. -/
theorem set_parameter_parse_errors_witness :
    ChandeMomentumOscillator.set (fun _ => none) (fun _ => none)
      witnessCfg "foo" "abc" =
      Except.error (Error.ParameterParse "foo" "abc") ∧
    CommodityChannelIndex.set (fun _ => none) (fun _ => none)
      cciWitnessCfg "foo" "abc" =
      Except.error (Error.ParameterParse "foo" "abc") ∧
    ChandeMomentumOscillator.set (fun _ => none) (fun _ => none)
      witnessCfg "period" "abc" =
      Except.error (Error.ParameterParse "period" "abc") ∧
    CommodityChannelIndex.set (fun _ => none) (fun _ => none)
      cciWitnessCfg "period" "abc" =
      Except.error (Error.ParameterParse "period" "abc") :=
  set_parameter_parse_errors (fun _ => none) (fun _ => none)
    witnessCfg cciWitnessCfg "foo" "abc" (by decide) (by decide)

/-- The debounce formula of the CommodityChannelIndex signal: a nonzero
debounced signal always differs from the previous one. -/
theorem debounce_ne_last (t last : Int)
    (h : (if t ≠ 0 ∧ last ≠ t then t else 0) ≠ 0) :
    (if t ≠ 0 ∧ last ≠ t then t else 0) ≠ last := by
  by_cases hc : t ≠ 0 ∧ last ≠ t
  · rw [if_pos hc]
    exact fun he => hc.2 he.symm
  · rw [if_neg hc] at h
    exact absurd rfl h

/-- Per-tick shape of the CommodityChannelIndex output: the emitted
signal is what gets stored into `last_signal`, and when nonzero it
differs from the previous `last_signal`. -/
theorem cci_next_signal_debounce {σ : Type} (f : σ → ℚ → ℚ × σ)
    (inst : CommodityChannelIndexInstance σ) (c : Candle) :
    (inst.next f c).1.signals = [(inst.next f c).2.last_signal] ∧
    ((inst.next f c).2.last_signal ≠ 0 →
      (inst.next f c).2.last_signal ≠ inst.last_signal) :=
  ⟨rfl, debounce_ne_last _ _⟩

/-- C10. A `CommodityChannelIndex` instance never emits the same nonzero
signal on two consecutive ticks: whatever the CCI method computes, the
signal of the second tick, when nonzero, differs from the signal emitted
on the immediately preceding tick (which `next` stored in
`last_signal`). -/
theorem cci_no_consecutive_equal_nonzero_signal {σ : Type}
    (f : σ → ℚ → ℚ × σ) (inst : CommodityChannelIndexInstance σ)
    (c₁ c₂ : Candle) (s₁ s₂ : Int)
    (h₁ : (inst.next f c₁).1.signals = [s₁])
    (h₂ : ((inst.next f c₁).2.next f c₂).1.signals = [s₂])
    (hnz : s₂ ≠ 0) : s₂ ≠ s₁ := by
  have e₁ := (cci_next_signal_debounce f inst c₁).1
  have e₂ := (cci_next_signal_debounce f (inst.next f c₁).2 c₂).1
  rw [e₁] at h₁
  rw [e₂] at h₂
  have hs₁ : (inst.next f c₁).2.last_signal = s₁ := by
    injection h₁
  have hs₂ : ((inst.next f c₁).2.next f c₂).2.last_signal = s₂ := by
    injection h₂
  rw [← hs₁, ← hs₂]
  exact (cci_next_signal_debounce f (inst.next f c₁).2 c₂).2 (hs₂ ▸ hnz)

/-- Witness for C10: the pass-through CCI stage fed `10` then `-3` with
zone `1` emits a sell signal then a buy signal — the nonzero second
signal `1` differs from the first signal `-1`. -/
theorem cci_no_consecutive_equal_nonzero_signal_witness :
    (1 : Int) ≠ (-1 : Int) :=
  cci_no_consecutive_equal_nonzero_signal cciWitnessStep
    cciWitnessInstance witnessCandle0 witnessCandleNeg (-1) 1
    (by norm_num [CommodityChannelIndexInstance.next, cciWitnessStep,
      cciWitnessInstance, cciWitnessCfg, witnessCandle0, Candle.source,
      SCALE])
    (by norm_num [CommodityChannelIndexInstance.next, cciWitnessStep,
      cciWitnessInstance, cciWitnessCfg, witnessCandle0, witnessCandleNeg,
      Candle.source, SCALE])
    (by decide)

end Yata
